import Mathlib

/-!
Shallow embedding of `redis_panel.py` from django-debug-toolbar-redis.

The module wraps a Redis client so that every command (and every pipelined
batch of commands) is timed and recorded, accumulates the recorded events in
a request-scoped panel, and renders the stack traces and per-command counts.

Modelling conventions:
* Python strings are Lean `String`s; a stack frame, as produced by the
  toolbar's `tidy_stacktrace`, is a tuple whose first component is the file
  path and whose remaining components are the other fields
  (`Frame := String × List String`, so `frame[0]` is `.1` and `frame[1:]`
  is `.2`).
* Wall-clock readings (`time.time()`) are passed in as rational parameters
  `start`/`stop`; `duration = (stop - start) * 1000` as in the source.
* The tidied, reversed stack returned by
  `tidy_stacktrace(reversed(get_stack()))` is an input list (oldest frame
  first, most recent frame last); the slice `[:-depth-1]` becomes
  `List.take (length - (depth+1))`.
* The return value of the underlying client call is a type parameter `V`;
  Python's `unicode(...)` rendering of it is a parameter `toStr : V → String`.
  A call that raises carries an error of type parameter `E`; fallible
  execution is `Except`.
-/

namespace RedisPanelModel

/-- A stack frame: `frame[0]` (the file path) paired with `frame[1:]`
(line number, function name, source line, rendered as strings). -/
abbrev Frame := String × List String

/-- One intercepted command invocation: the dict built by `make_call_dict`,
whose `return` entry (here `ret`) is absent until the underlying call
completes. -/
structure Call where
  function : String
  key : String
  args : String
  trace : List Frame
  ret : Option String
  deriving DecidableEq, Repr

/-- The payload of one `redis_call` signal emission: a duration in
milliseconds together with the ordered calls it covers. -/
structure Batch where
  duration : ℚ
  calls : List Call
  deriving DecidableEq, Repr

/-- The host configuration read in `make_call_dict`:
`DEBUG_TOOLBAR_CONFIG.get('ENABLE_STACKTRACES', True)`. -/
structure Config where
  enableStack : Bool
  deriving DecidableEq, Repr

/-- Python `repr` of a string argument, as used to display positional and
keyword arguments (quote-wrapping; the inner escaping Python performs on
special characters is irrelevant to every recorded property and elided). -/
def pyRepr (s : String) : String := "'" ++ s ++ "'"

/-- `TrackingRedisBase.make_call_dict(depth, *args, **kwargs)`.
`stack` is the value of `tidy_stacktrace(reversed(get_stack()))`, oldest
frame first; the slice `[:-depth-1]` keeps all but the `depth+1` most
recent frames.  `args.headD ""` stands for `args[0]` (every caller passes
the command name there); `len(args) > 1 and args[1] or ''` collapses to
`args[1]`-with-default since a falsy string is the empty string. -/
def make_call_dict (cfg : Config) (stack : List Frame) (depth : Nat)
    (args : List String) (kwargs : List (String × String)) : Call :=
  { function := args.headD ""
    key := if 1 < args.length then args.getD 1 "" else ""
    args := " , ".intercalate
      ((args.drop 2).map pyRepr ++ kwargs.map (fun kv => kv.1 ++ "=" ++ pyRepr kv.2))
    trace := if cfg.enableStack then stack.take (stack.length - (depth + 1)) else []
    ret := none }

/-- `TrackingRedisMixin.execute_command(func_name, *args, **kwargs)`.
`u` is the outcome of the delegated
`super().execute_command(func_name, *args, **kwargs)`.  Returns the
value handed back to the caller (or the re-raised error) together with the
list of `redis_call` emissions performed in the `finally` block — the
source emits exactly once, so the list is a singleton. -/
def execute_command {V E : Type} (toStr : V → String) (cfg : Config)
    (stack : List Frame) (start stop : ℚ) (funcName : String)
    (args : List String) (kwargs : List (String × String))
    (u : Except E V) : Except E V × List Batch :=
  let call := make_call_dict cfg stack 2 (funcName :: args) kwargs
  match u with
  | .ok v =>
      (.ok v, [{ duration := (stop - start) * 1000
                 calls := [{ call with ret := some (toStr v) }] }])
  | .error e =>
      (.error e, [{ duration := (stop - start) * 1000, calls := [call] }])

/-- Errors escaping `BaseTrackingPipeline.execute`: either the underlying
batch-execute's own error, or the `IndexError` raised by `ret[i]` when the
result list is shorter than the queued command list. -/
inductive PyErr (E : Type) where
  | user (e : E)
  | indexError
  deriving DecidableEq

/-- The loop `for i, call in enumerate(tr['calls']): call['return'] =
unicode(ret[i])`: sets each call's return from the result at the same
position; when the results run out it stops mid-way (the remaining calls
keep `ret = none`) and reports that an `IndexError` was raised. -/
def setReturns {V : Type} (toStr : V → String) :
    List Call → List V → List Call × Bool
  | [], _ => ([], false)
  | c :: cs, [] => (c :: cs, true)
  | c :: cs, r :: rs =>
      let t := setReturns toStr cs rs
      ({ c with ret := some (toStr r) } :: t.1, t.2)

/-- `BaseTrackingPipeline.execute()`.  `commandStack` is
`self.command_stack`, a list of `(arguments, options)` pairs; one call dict
is synthesized per queued command (with `depth = 1`), the delegated
`super().execute()` outcome is `u`, and the single `redis_call` emission
happens in the `finally` block whether the body completed, the underlying
execute raised, or the return-assignment loop raised `IndexError`. -/
def pipeline_execute {V E : Type} (toStr : V → String) (cfg : Config)
    (stack : List Frame) (start stop : ℚ)
    (commandStack : List (List String × List (String × String)))
    (u : Except E (List V)) : Except (PyErr E) (List V) × List Batch :=
  let calls := commandStack.map (fun ao => make_call_dict cfg stack 1 ao.1 ao.2)
  match u with
  | .error e =>
      (.error (.user e), [{ duration := (stop - start) * 1000, calls := calls }])
  | .ok rs =>
      let t := setReturns toStr calls rs
      ((if t.2 then .error .indexError else .ok rs),
       [{ duration := (stop - start) * 1000, calls := t.1 }])

/-- `django.utils.html.escape` on one character: `&`, `<`, `>`, `"` and the
apostrophe become HTML entities, every other character passes through. -/
def escapeChar (c : Char) : String :=
  if c = '&' then "&amp;"
  else if c = '<' then "&lt;"
  else if c = '>' then "&gt;"
  else if c = '"' then "&quot;"
  else if c = '\'' then "&#39;"
  else String.mk [c]

/-- `django.utils.html.escape`: entity-encode the markup-significant
characters of a string. -/
def escape (s : String) : String := String.join (s.data.map escapeChar)

/-- `os.path.sep` on the targeted (POSIX) platform. -/
def sepChar : Char := '/'

/-- Split a character list at the LAST occurrence of `sep`, returning the
parts before and after it, or `none` when `sep` does not occur. -/
def splitLast (sep : Char) : List Char → Option (List Char × List Char)
  | [] => none
  | c :: cs =>
      match splitLast sep cs with
      | some p => some (c :: p.1, p.2)
      | none => if c = sep then some ([], cs) else none

/-- Python `s.rsplit(os.path.sep, 1)`: the whole string when the separator
is absent, otherwise the two pieces around its last occurrence. -/
def rsplit1 (s : String) : List String :=
  match splitLast sepChar s.data with
  | none => [s]
  | some p => [String.mk p.1, String.mk p.2]

/-- The format template of `render_stacktrace` applied to the first five
escaped parameters (`{0}`=directory, `{1}`=file name, `{2}`=line number,
`{3}`=function name, `{4}`=source line). -/
def entry (p0 p1 p2 p3 p4 : String) : String :=
  "<span class=\"path\">" ++ p0 ++ "/</span><span class=\"file\">" ++ p1 ++
  "</span> in <span class=\"func\">" ++ p3 ++
  "</span>(<span class=\"lineno\">" ++ p2 ++
  "</span>)\n  <span class=\"code\">" ++ p4 ++ "</span>"

/-- One iteration of the `render_stacktrace` loop:
`params = map(escape, frame[0].rsplit(os.path.sep, 1) + list(frame[1:]))`,
then the five-placeholder format — `some` entry when at least five
parameters exist, `none` for the `IndexError` that is caught and skipped. -/
def formatFrame (frame : Frame) : Option String :=
  match (rsplit1 frame.1 ++ frame.2).map escape with
  | p0 :: p1 :: p2 :: p3 :: p4 :: _ => some (entry p0 p1 p2 p3 p4)
  | _ => none

/-- `render_stacktrace(trace)`: format each frame, silently dropping the
frames whose parameter tuple is too short, and join with newlines. -/
def render_stacktrace (trace : List Frame) : String :=
  "\n".intercalate (trace.filterMap formatFrame)

/-- A recorded call after `RedisPanel._add_call` replaced its frame list by
the rendered trace string. -/
structure RCall where
  function : String
  key : String
  args : String
  traceStr : String
  ret : Option String
  deriving DecidableEq, Repr

/-- A recorded `{'duration': ..., 'calls': ...}` group in `RedisPanel.calls`. -/
structure RBatch where
  duration : ℚ
  calls : List RCall
  deriving DecidableEq, Repr

/-- The request-scoped `RedisPanel` state: its accumulated `self.calls`. -/
structure Recorder where
  calls : List RBatch
  deriving DecidableEq, Repr

/-- The in-place `call['trace'] = render_stacktrace(call['trace'])` step of
`RedisPanel._add_call`. -/
def renderCall (c : Call) : RCall :=
  { function := c.function, key := c.key, args := c.args
    traceStr := render_stacktrace c.trace, ret := c.ret }

/-- The recorded form of one emitted event. -/
def renderEvent (ev : Batch) : RBatch :=
  { duration := ev.duration, calls := ev.calls.map renderCall }

/-- `RedisPanel._add_call(sender, duration, calls)`: render each call's
trace and append the group to `self.calls`. -/
def addCall (r : Recorder) (ev : Batch) : Recorder :=
  { calls := r.calls ++ [renderEvent ev] }

/-- The panel state after receiving the events `evs` in order, starting
from the freshly-constructed panel (`self.calls = []`). -/
def recorderAfter (evs : List Batch) : Recorder :=
  evs.foldl addCall { calls := [] }

/-- The `%(calls)d` figure of `RedisPanel.nav_subtitle`:
`calls = len(self.calls)`. -/
def navCount (r : Recorder) : Nat := r.calls.length

/-- The `%(duration).2f` figure of `RedisPanel.nav_subtitle`:
`sum(map(operator.itemgetter('duration'), self.calls))`. -/
def navDuration (r : Recorder) : ℚ := (r.calls.map (·.duration)).sum

/-- Python `dict.get(k, 0)` on the association list modelling the
`commands` dict (keys are unique, first match wins). -/
def dictGet : List (String × Nat) → String → Nat
  | [], _ => 0
  | p :: d, k => if p.1 = k then p.2 else dictGet d k

/-- Python `d[k] = v` on the association list: overwrite the existing
binding or append a new one. -/
def dictSet : List (String × Nat) → String → Nat → List (String × Nat)
  | [], k, v => [(k, v)]
  | p :: d, k, v => if p.1 = k then (k, v) :: d else p :: dictSet d k v

/-- The aggregation loop of `RedisPanel.content`:
`commands[call['function']] = commands.get(call['function'], 0) + 1`
over every call of every recorded group. -/
def commandCounts (r : Recorder) : List (String × Nat) :=
  r.calls.foldl
    (fun d tr => tr.calls.foldl
      (fun d c => dictSet d c.function (dictGet d c.function + 1)) d)
    []

/-- `django.dispatch.Signal.send_robust`, the delivery mechanism used at
both emission sites.  Modelled from its documented contract (external
collaborator, spec section 6): every connected receiver is invoked with
the event, an exception raised by a receiver is caught and returned in
that receiver's response slot instead of propagating. -/
def sendRobust {Er : Type} (listeners : List (Batch → Except Er Unit))
    (ev : Batch) : List (Except Er Unit) :=
  listeners.map (fun l => l ev)

/-- `execute_command` together with the `redis_call.send_robust` delivery
of its event to the connected listeners. -/
def execute_command_sr {V E Er : Type} (toStr : V → String) (cfg : Config)
    (stack : List Frame) (start stop : ℚ) (funcName : String)
    (args : List String) (kwargs : List (String × String))
    (u : Except E V) (listeners : List (Batch → Except Er Unit)) :
    Except E V × List (List (Except Er Unit)) :=
  let r := execute_command toStr cfg stack start stop funcName args kwargs u
  (r.1, r.2.map (sendRobust listeners))

/-! ### Supporting lemmas -/

theorem splitLast_eq_none {sep : Char} : ∀ {cs : List Char}, sep ∉ cs →
    splitLast sep cs = none := by
  intro cs h
  induction cs with
  | nil => rfl
  | cons c cs ih =>
      simp only [List.mem_cons, not_or] at h
      simp only [splitLast, ih h.2]
      exact if_neg (fun hc => h.1 hc.symm)

theorem splitLast_append {sep : Char} (l r : List Char) (h : sep ∉ r) :
    splitLast sep (l ++ sep :: r) = some (l, r) := by
  induction l with
  | nil => simp [splitLast, splitLast_eq_none h]
  | cons c l ih => simp [splitLast, ih]

theorem rsplit1_sep_free {s : String} (h : sepChar ∉ s.data) :
    rsplit1 s = [s] := by
  simp [rsplit1, splitLast_eq_none h]

theorem rsplit1_split (d f : String) (h : sepChar ∉ f.data) :
    rsplit1 (d ++ "/" ++ f) = [d, f] := by
  have hdata : (d ++ "/" ++ f).data = d.data ++ sepChar :: f.data := by
    simp [String.data_append]
    rfl
  simp [rsplit1, hdata, splitLast_append d.data f.data h]

theorem setReturns_map_ret {V : Type} (toStr : V → String) :
    ∀ (rs : List V) (cs : List Call), rs.length ≤ cs.length →
      (setReturns toStr cs rs).1.map (·.ret) =
        rs.map (fun r => some (toStr r)) ++ (cs.drop rs.length).map (·.ret) := by
  intro rs
  induction rs with
  | nil => intro cs _; cases cs <;> simp [setReturns]
  | cons r rs ih =>
      intro cs hle
      cases cs with
      | nil => simp at hle
      | cons c cs =>
          simp only [List.length_cons, Nat.succ_le_succ_iff] at hle
          simp [setReturns, ih cs hle]

theorem setReturns_map_function {V : Type} (toStr : V → String) :
    ∀ (cs : List Call) (rs : List V),
      (setReturns toStr cs rs).1.map (·.function) = cs.map (·.function) := by
  intro cs
  induction cs with
  | nil => intro rs; rfl
  | cons c cs ih =>
      intro rs
      cases rs with
      | nil => rfl
      | cons r rs => simp [setReturns, ih]

theorem setReturns_map_trace {V : Type} (toStr : V → String) :
    ∀ (cs : List Call) (rs : List V),
      (setReturns toStr cs rs).1.map (·.trace) = cs.map (·.trace) := by
  intro cs
  induction cs with
  | nil => intro rs; rfl
  | cons c cs ih =>
      intro rs
      cases rs with
      | nil => rfl
      | cons r rs => simp [setReturns, ih]

theorem setReturns_fst_length {V : Type} (toStr : V → String) :
    ∀ (cs : List Call) (rs : List V),
      (setReturns toStr cs rs).1.length = cs.length := by
  intro cs
  induction cs with
  | nil => intro rs; rfl
  | cons c cs ih =>
      intro rs
      cases rs with
      | nil => rfl
      | cons r rs => simp [setReturns, ih]

theorem setReturns_snd {V : Type} (toStr : V → String) :
    ∀ (cs : List Call) (rs : List V),
      (setReturns toStr cs rs).2 = decide (rs.length < cs.length) := by
  intro cs
  induction cs with
  | nil => intro rs; simp [setReturns]
  | cons c cs ih =>
      intro rs
      cases rs with
      | nil => simp [setReturns]
      | cons r rs => simp [setReturns, ih]

theorem map_ret_make_call_dict (cfg : Config) (stack : List Frame) (d : Nat)
    (cs : List (List String × List (String × String))) :
    (cs.map (fun ao => make_call_dict cfg stack d ao.1 ao.2)).map (·.ret) =
      List.replicate cs.length none := by
  induction cs with
  | nil => rfl
  | cons c cs ih =>
      simp only [List.map_cons, List.length_cons, List.replicate_succ, ih]
      rfl

theorem map_function_make_call_dict (cfg : Config) (stack : List Frame)
    (d : Nat) (cs : List (List String × List (String × String))) :
    (cs.map (fun ao => make_call_dict cfg stack d ao.1 ao.2)).map (·.function) =
      cs.map (fun ao => ao.1.headD "") := by
  induction cs with
  | nil => rfl
  | cons c cs ih =>
      simp only [List.map_cons, ih]
      rfl

theorem map_trace_make_call_dict (cfg : Config) (stack : List Frame)
    (d : Nat) (cs : List (List String × List (String × String))) :
    (cs.map (fun ao => make_call_dict cfg stack d ao.1 ao.2)).map (·.trace) =
      cs.map (fun _ =>
        if cfg.enableStack then stack.take (stack.length - (d + 1)) else []) := by
  induction cs with
  | nil => rfl
  | cons c cs ih =>
      simp only [List.map_cons, ih]
      rfl

theorem recorderAfter_calls (evs : List Batch) (r : Recorder) :
    (evs.foldl addCall r).calls = r.calls ++ evs.map renderEvent := by
  induction evs generalizing r with
  | nil => simp
  | cons e evs ih => simp [List.foldl_cons, ih, addCall]

theorem dictGet_dictSet (d : List (String × Nat)) (k : String) (v : Nat)
    (q : String) :
    dictGet (dictSet d k v) q = if k = q then v else dictGet d q := by
  induction d with
  | nil => simp [dictSet, dictGet]
  | cons p d ih =>
      by_cases hp : p.1 = k
      · subst hp
        simp only [dictSet, if_pos rfl, dictGet]
        by_cases hq : p.1 = q <;> simp [hq]
      · simp only [dictSet, if_neg hp, dictGet, ih]
        by_cases hq : p.1 = q
        · subst hq
          simp only [if_pos rfl]
          exact (if_neg fun h => hp h.symm).symm
        · simp [hq]

theorem dictGet_countFold (names : List String) (d : List (String × Nat))
    (k : String) :
    dictGet (names.foldl (fun d f => dictSet d f (dictGet d f + 1)) d) k =
      dictGet d k + names.count k := by
  induction names generalizing d with
  | nil => simp
  | cons f names ih =>
      rw [List.foldl_cons, ih, dictGet_dictSet]
      by_cases h : f = k
      · subst h
        simp [List.count_cons]
        omega
      · simp [h, List.count_cons, Ne.symm h]

theorem commandCounts_eq_countFold (bs : List RBatch) (d : List (String × Nat)) :
    bs.foldl
        (fun d tr => tr.calls.foldl
          (fun d c => dictSet d c.function (dictGet d c.function + 1)) d) d =
      ((bs.map (·.calls)).flatten.map (·.function)).foldl
        (fun d f => dictSet d f (dictGet d f + 1)) d := by
  induction bs generalizing d with
  | nil => simp
  | cons b bs ih =>
      simp only [List.foldl_cons, List.map_cons, List.flatten_cons, List.map_append,
        List.foldl_append, ih, List.foldl_map]

/-! ### Claim theorems -/

/-- C2: when the underlying execution of a single intercepted command
raises, the Call event is still emitted — exactly once, with its duration
finalized to `(stop - start) * 1000` and its return value unset — and the
original error propagates unchanged to the caller. -/
theorem single_error_still_emits {V E : Type} (toStr : V → String)
    (cfg : Config) (stack : List Frame) (start stop : ℚ) (funcName : String)
    (args : List String) (kwargs : List (String × String)) (e : E) :
    (execute_command (V := V) toStr cfg stack start stop funcName args kwargs
        (.error e)).1 = .error e ∧
    (execute_command (V := V) toStr cfg stack start stop funcName args kwargs
        (.error e)).2.map (·.duration) = [(stop - start) * 1000] ∧
    (execute_command (V := V) toStr cfg stack start stop funcName args kwargs
        (.error e)).2.map (·.calls.map (·.ret)) = [[none]] :=
  ⟨rfl, rfl, rfl⟩

/-- C3: when the underlying execution of a single intercepted command
succeeds with value `v`, the wrapper returns exactly `v`, and the one
emitted Call's return value is the formatted (string-rendered) `v`. -/
theorem single_success_transparent {V E : Type} (toStr : V → String)
    (cfg : Config) (stack : List Frame) (start stop : ℚ) (funcName : String)
    (args : List String) (kwargs : List (String × String)) (v : V) :
    (execute_command (E := E) toStr cfg stack start stop funcName args kwargs
        (.ok v)).1 = .ok v ∧
    (execute_command (E := E) toStr cfg stack start stop funcName args kwargs
        (.ok v)).2.length = 1 ∧
    (execute_command (E := E) toStr cfg stack start stop funcName args kwargs
        (.ok v)).2.map (·.calls.map (·.ret)) = [[some (toStr v)]] :=
  ⟨rfl, rfl, rfl⟩

/-- C1: a batch execution of M queued commands emits exactly one Batch
event containing exactly M Calls, one per queued command in issue order;
when the underlying batch-execute completes with one result per command
the execute returns those results and each Call's return value is the
formatted result at the same position, while if it raises every return
value is left unset. -/
theorem batch_event_one_call_per_command {V E : Type} (toStr : V → String)
    (cfg : Config) (stack : List Frame) (start stop : ℚ)
    (cs : List (List String × List (String × String)))
    (rs : List V) (hlen : rs.length = cs.length) (e : E) :
    (pipeline_execute (E := E) toStr cfg stack start stop cs (.ok rs)).1 = .ok rs ∧
    (pipeline_execute (E := E) toStr cfg stack start stop cs (.ok rs)).2.length = 1 ∧
    (pipeline_execute (E := E) toStr cfg stack start stop cs
        (.ok rs)).2.map (·.calls.length) = [cs.length] ∧
    (pipeline_execute (E := E) toStr cfg stack start stop cs
        (.ok rs)).2.map (·.calls.map (·.function)) =
      [cs.map (fun ao => ao.1.headD "")] ∧
    (pipeline_execute (E := E) toStr cfg stack start stop cs
        (.ok rs)).2.map (·.calls.map (·.ret)) =
      [rs.map (fun r => some (toStr r))] ∧
    (pipeline_execute (E := E) toStr cfg stack start stop cs
        (.error e)).2.map (·.calls.map (·.ret)) =
      [List.replicate cs.length none] := by
  have hcalls :
      (cs.map (fun ao => make_call_dict cfg stack 1 ao.1 ao.2)).length =
        cs.length := List.length_map _ _
  have hflag : (setReturns toStr
      (cs.map (fun ao => make_call_dict cfg stack 1 ao.1 ao.2)) rs).2 = false := by
    rw [setReturns_snd]
    simp [hcalls, hlen]
  refine ⟨?_, rfl, ?_, ?_, ?_, ?_⟩
  · simp [pipeline_execute, hflag]
  · simp [pipeline_execute, setReturns_fst_length]
  · simp only [pipeline_execute, List.map_cons, List.map_nil,
      setReturns_map_function, map_function_make_call_dict]
  · simp only [pipeline_execute, List.map_cons, List.map_nil]
    rw [setReturns_map_ret toStr rs _ (by rw [hcalls, hlen])]
    rw [hlen, ← hcalls, List.drop_length]
    simp
  · simp only [pipeline_execute, List.map_cons, List.map_nil,
      map_ret_make_call_dict]

/-- C1 witness: a batch of two commands whose execute returns two results
yields one event whose two Calls carry the two formatted results in
order. -/
theorem batch_event_one_call_per_command_witness :
    (["OK", "v2"] : List String).length =
      ([(["SET", "k2", "v2"], ([] : List (String × String))),
        (["GET", "k2"], [])]).length ∧
    (pipeline_execute (E := Unit) (fun s : String => s) ⟨false⟩ [] 0 1
        [(["SET", "k2", "v2"], []), (["GET", "k2"], [])]
        (.ok ["OK", "v2"])).2.map (·.calls.map (·.ret)) =
      [[some "OK", some "v2"]] :=
  ⟨by decide,
   (batch_event_one_call_per_command (fun s : String => s) ⟨false⟩ [] 0 1
      [(["SET", "k2", "v2"], []), (["GET", "k2"], [])] ["OK", "v2"]
      (by decide) ()).2.2.2.2.1⟩

/-- C9: when the underlying batch-execute returns strictly fewer results
than there are queued commands, the wrapped execute raises an index error
to the caller, while the Batch event still fires with exactly one Call per
queued command, return values set only for the positions covered by the
result list and unset past its end. -/
theorem short_results_raise_index_error {V E : Type} (toStr : V → String)
    (cfg : Config) (stack : List Frame) (start stop : ℚ)
    (cs : List (List String × List (String × String)))
    (rs : List V) (hlt : rs.length < cs.length) :
    (pipeline_execute (E := E) toStr cfg stack start stop cs (.ok rs)).1 =
      .error .indexError ∧
    (pipeline_execute (E := E) toStr cfg stack start stop cs
        (.ok rs)).2.length = 1 ∧
    (pipeline_execute (E := E) toStr cfg stack start stop cs
        (.ok rs)).2.map (·.calls.length) = [cs.length] ∧
    (pipeline_execute (E := E) toStr cfg stack start stop cs
        (.ok rs)).2.map (·.calls.map (·.ret)) =
      [rs.map (fun r => some (toStr r)) ++
        List.replicate (cs.length - rs.length) none] := by
  have hcalls :
      (cs.map (fun ao => make_call_dict cfg stack 1 ao.1 ao.2)).length =
        cs.length := List.length_map _ _
  have hflag : (setReturns toStr
      (cs.map (fun ao => make_call_dict cfg stack 1 ao.1 ao.2)) rs).2 = true := by
    rw [setReturns_snd]
    simp [hcalls, hlt]
  refine ⟨?_, rfl, ?_, ?_⟩
  · simp [pipeline_execute, hflag]
  · simp [pipeline_execute, setReturns_fst_length]
  · simp only [pipeline_execute, List.map_cons, List.map_nil]
    rw [setReturns_map_ret toStr rs _ (by rw [hcalls]; exact Nat.le_of_lt hlt)]
    rw [← List.map_drop, map_ret_make_call_dict, List.length_drop]

/-- C9 witness: two queued commands with a single-element result list —
the wrapper raises the index error and the event carries one set and one
unset return value. -/
theorem short_results_raise_index_error_witness :
    (["v1"] : List String).length <
      ([(["GET", "k"], ([] : List (String × String))),
        (["SET", "k"], [])]).length ∧
    (pipeline_execute (E := Unit) (fun s : String => s) ⟨false⟩ [] 0 1
        [(["GET", "k"], []), (["SET", "k"], [])] (.ok ["v1"])).1 =
      .error .indexError :=
  ⟨by decide,
   (short_results_raise_index_error (fun s : String => s) ⟨false⟩ [] 0 1
      [(["GET", "k"], []), (["SET", "k"], [])] ["v1"] (by decide)).1⟩

/-- C4 counterexample: after recording one single-command event and one
batch event of two commands, the recorder holds three Calls in total, yet
`nav_subtitle` reports `len(self.calls) = 2` — the number of recorded
events, not the total call count 3 that the claim states. -/
theorem nav_count_counterexample :
    navCount (recorderAfter
      ((execute_command (E := Unit) (fun s : String => s) ⟨false⟩ [] 0 1
          "GET" ["key1"] [] (.ok "v1")).2 ++
       (pipeline_execute (E := Unit) (fun s : String => s) ⟨false⟩ [] 1 2
          [(["SET", "key2", "v2"], []), (["GET", "key2"], [])]
          (.ok ["OK", "v2"])).2)) = 2 ∧
    ((recorderAfter
      ((execute_command (E := Unit) (fun s : String => s) ⟨false⟩ [] 0 1
          "GET" ["key1"] [] (.ok "v1")).2 ++
       (pipeline_execute (E := Unit) (fun s : String => s) ⟨false⟩ [] 1 2
          [(["SET", "key2", "v2"], []), (["GET", "key2"], [])]
          (.ok ["OK", "v2"])).2)).calls.map (·.calls.length)).sum = 3 ∧
    (2 : Nat) ≠ 3 := by
  refine ⟨rfl, rfl, by decide⟩

/-- C4 (amended): `nav_subtitle` reports the number of recorded Batch
events — one per single command and one per batch, regardless of batch
size — and the total duration as the sum of all recorded Batch durations;
after one single command plus one batch of two commands the reported count
is 2. -/
theorem nav_subtitle_counts_events (evs : List Batch) :
    navCount (recorderAfter evs) = evs.length ∧
    navDuration (recorderAfter evs) = (evs.map (·.duration)).sum := by
  constructor
  · simp [navCount, recorderAfter, recorderAfter_calls]
  · simp only [navDuration, recorderAfter, recorderAfter_calls,
      List.nil_append, List.map_map]
    rfl

/-- C5 counterexample: with stack capture enabled and a captured stack of
five frames, the single-command interceptor records only the first two
frames — it removes the three top-most captured frames, not the two the
claim states (under which the trace would be the first three frames). -/
theorem trace_trim_counterexample :
    ((execute_command (E := Unit) (fun s : String => s) ⟨true⟩
        [("f0", []), ("f1", []), ("f2", []), ("f3", []), ("f4", [])] 0 1
        "GET" ["k"] [] (.ok "v")).2.map (·.calls.map (·.trace))) =
      [[[("f0", []), ("f1", [])]]] ∧
    ([("f0", []), ("f1", [])] : List Frame) ≠
      ([("f0", []), ("f1", []), ("f2", []), ("f3", []), ("f4", [])] :
          List Frame).take
        (([("f0", []), ("f1", []), ("f2", []), ("f3", []), ("f4", [])] :
            List Frame).length - 2) := by
  refine ⟨rfl, by decide⟩

/-- C5 (amended): when stack capture is disabled every recorded trace is
the empty sequence; when it is enabled the trace is the captured ordered
frame sequence with the `depth + 1` top-most frames removed — three for a
single command and two for each command of a batch — so the two
interception paths trim different numbers of frames. -/
theorem trace_trim_depth_plus_one {V E : Type} (toStr : V → String)
    (cfg : Config) (stack : List Frame) (start stop : ℚ) (funcName : String)
    (args : List String) (kwargs : List (String × String)) (u : Except E V)
    (cs : List (List String × List (String × String)))
    (u2 : Except E (List V)) :
    (execute_command toStr cfg stack start stop funcName args kwargs
        u).2.map (·.calls.map (·.trace)) =
      [[if cfg.enableStack then stack.take (stack.length - 3) else []]] ∧
    (pipeline_execute toStr cfg stack start stop cs
        u2).2.map (·.calls.map (·.trace)) =
      [cs.map (fun _ =>
        if cfg.enableStack then stack.take (stack.length - 2) else [])] := by
  constructor
  · cases u <;> rfl
  · cases u2 with
    | error e =>
        simp only [pipeline_execute, List.map_cons, List.map_nil,
          map_trace_make_call_dict]
    | ok rs =>
        simp only [pipeline_execute, List.map_cons, List.map_nil,
          setReturns_map_trace, map_trace_make_call_dict]

/-- C6: the per-command summary built by `content` maps each command name
to its exact occurrence count across all Calls of all recorded Batches;
for recorded calls to `GET`, `SET`, `GET` it yields the mapping
`GET ↦ 2, SET ↦ 1`. -/
theorem content_command_counts (r : Recorder) (k : String) :
    dictGet (commandCounts r) k =
      ((r.calls.map (·.calls)).flatten.map (·.function)).count k ∧
    commandCounts
      { calls := [⟨1, [⟨"GET", "k1", "", "", some "v1"⟩]⟩,
                  ⟨2, [⟨"SET", "k2", "", "", some "OK"⟩,
                       ⟨"GET", "k2", "", "", some "v2"⟩]⟩] } =
      [("GET", 2), ("SET", 1)] := by
  constructor
  · show dictGet (r.calls.foldl _ []) k = _
    rw [commandCounts_eq_countFold, dictGet_countFold]
    simp [dictGet]
  · rfl

/-- C7: `render_stacktrace` joins the rendered frames with newlines; a
frame whose path splits at the last separator into a directory and a file
name and which carries line number, function name and source line renders
as the escaped `directory/file in function(line)` entry followed by the
indented escaped source line; a frame whose parameters do not fill the
format is silently skipped without affecting the other frames. -/
theorem render_stacktrace_correct :
    (∀ trace : List Frame,
        render_stacktrace trace = "\n".intercalate (trace.filterMap formatFrame)) ∧
    (∀ d f ln fn src : String, sepChar ∉ f.data →
        formatFrame (d ++ "/" ++ f, [ln, fn, src]) =
          some (entry (escape d) (escape f) (escape ln) (escape fn)
            (escape src))) ∧
    (∀ fr : Frame, ∀ trace : List Frame, formatFrame fr = none →
        render_stacktrace (fr :: trace) = render_stacktrace trace) := by
  refine ⟨fun trace => rfl, fun d f ln fn src h => ?_, fun fr trace h => ?_⟩
  · unfold formatFrame
    rw [rsplit1_split d f h]
    rfl
  · simp [render_stacktrace, List.filterMap_cons, h]

/-- C7 witness: a path with two separators splits at the last one, and a
malformed frame in front of a well-formed one drops out of the rendering. -/
theorem render_stacktrace_correct_witness :
    formatFrame ("a/b" ++ "/" ++ "x.py", ["12", "f", "y = 1"]) =
      some (entry (escape "a/b") (escape "x.py") (escape "12") (escape "f")
        (escape "y = 1")) ∧
    render_stacktrace (("q", ["1", "g", "z"]) :: [("a/x", ["2", "h", "w"])]) =
      render_stacktrace [("a/x", ["2", "h", "w"])] :=
  ⟨render_stacktrace_correct.2.1 "a/b" "x.py" "12" "f" "y = 1" (by decide),
   render_stacktrace_correct.2.2 ("q", ["1", "g", "z"])
     [("a/x", ["2", "h", "w"])] (by decide)⟩

/-- C8: event delivery is a best-effort broadcast — the value returned to
the caller does not depend on the listeners at all, every listener receives
the event (one response slot per listener), and each listener's outcome is
exactly its own reaction to the event, unaffected by failures of the
listeners before or after it. -/
theorem robust_broadcast_isolation {V E Er : Type} (toStr : V → String)
    (cfg : Config) (stack : List Frame) (start stop : ℚ) (funcName : String)
    (args : List String) (kwargs : List (String × String)) (u : Except E V)
    (listeners : List (Batch → Except Er Unit)) :
    (execute_command_sr toStr cfg stack start stop funcName args kwargs u
        listeners).1 =
      (execute_command toStr cfg stack start stop funcName args kwargs u).1 ∧
    (∀ ev : Batch, (sendRobust listeners ev).length = listeners.length) ∧
    (∀ (pre post : List (Batch → Except Er Unit))
        (l : Batch → Except Er Unit) (ev : Batch),
        sendRobust (pre ++ l :: post) ev =
          sendRobust pre ev ++ l ev :: sendRobust post ev) := by
  refine ⟨rfl, fun ev => List.length_map _ _, fun pre post l ev => ?_⟩
  simp [sendRobust]

/-- C10: a frame whose file path contains no path separator is dropped by
the renderer even when it has all four expected fields — the path splits
into a single component, the five-placeholder format fails, and the frame
never appears in the output. -/
theorem sep_free_frame_skipped (p ln fn src : String)
    (h : sepChar ∉ p.data) :
    formatFrame (p, [ln, fn, src]) = none ∧
    ∀ pre post : List Frame,
      render_stacktrace (pre ++ (p, [ln, fn, src]) :: post) =
        render_stacktrace (pre ++ post) := by
  have hf : formatFrame (p, [ln, fn, src]) = none := by
    unfold formatFrame
    rw [rsplit1_sep_free h]
    rfl
  refine ⟨hf, fun pre post => ?_⟩
  simp [render_stacktrace, List.filterMap_append, List.filterMap_cons, hf]

/-- C10 witness: the separator-free path `nosep` with three further fields
is dropped, leaving the surrounding frames' rendering unchanged. -/
theorem sep_free_frame_skipped_witness :
    formatFrame ("nosep", ["1", "g", "z"]) = none ∧
    render_stacktrace
        ([("a/x", ["2", "h", "w"])] ++ ("nosep", ["1", "g", "z"]) ::
          [("b/y", ["3", "i", "v"])]) =
      render_stacktrace ([("a/x", ["2", "h", "w"])] ++ [("b/y", ["3", "i", "v"])]) :=
  ⟨(sep_free_frame_skipped "nosep" "1" "g" "z" (by decide)).1,
   (sep_free_frame_skipped "nosep" "1" "g" "z" (by decide)).2
     [("a/x", ["2", "h", "w"])] [("b/y", ["3", "i", "v"])]⟩

end RedisPanelModel
